import Mathlib

/-!
# A verification model of the NoDB record store (`helper_classes.py`)

Shallow embedding, in Lean 4, of the core of the NoDB repository: the
serialization codec (`_serializeHelper` / `_desearializeHelper` /
`_serialize` / `_desearialize`), the per-row advisory-lock state machine
(`LockBase` / `SharedLock` / `ExclusiveLock`, `save`), and the `Table`
row-lifecycle operations (`create`, `createWithUniqueKey`, `remove`).

Modelling conventions:
* Python 2 values that can live in a row's attribute dictionary are the
  inductive `Value`; JSON-ready values are the inductive `JValue`.
* The standard-library `json` module is modelled by its contract: a
  serialized text is represented by its parse result (`JSONText`), so
  `json.dumps` tags a `JValue` as well-formed text and `json.loads`
  recovers it, while any non-JSON text is `JSONText.malformed`.
* The standard-library `pickle` module is modelled by its contract: an
  injective rendering of an opaque object's identity with a matching
  inverse (`pickle.dumps` / `pickle.loads`).
* `datetime.ctime` and `datetime.strptime` with the format
  `'%a %b %d %H:%M:%S %Y'` are implemented concretely at character level,
  matching the C `asctime` layout that `ctime` produces and the regexes
  Python's `_strptime` uses for each directive (`%Y` is exactly four
  digits; `%d` accepts a space-padded day; the parse must consume the
  whole string).  Microseconds do not appear in the format.
* Python exceptions are the inductive `PyExc`; an `except` clause matches
  by constructor, and — as in Python 2, where `OSError` and `IOError` are
  distinct classes — `except IOError` does not catch `OSError`.
* Machine-level file descriptors and the filesystem are abstracted to a
  single table directory: an association list from row key to file text.
-/

/-- Python exceptions that the modelled code can raise.  `osError` and
`ioError` are separate constructors because they are separate classes in
Python 2 (`os.remove` raises `OSError`; `open` raises `IOError`). -/
inductive PyExc where
  | ioError (errno : Nat)
  | osError (errno : Nat)
  | valueError
  | keyError
  | typeError
  | indexError
  | nameError (missing : String)
  | unpicklingError
  | rowAlreadyExists (key : String)
  | rowDoesNotExist (key : String)
  | loopFuelExhausted
deriving DecidableEq, Repr

/-- JSON-representable values, as produced by `json.loads`.  Numbers are
modelled as integers file-wide (floating point is out of scope). -/
inductive JValue where
  | null
  | bool (b : Bool)
  | num (n : Int)
  | str (s : String)
  | arr (xs : List JValue)
  | obj (kvs : List (String × JValue))

/-- A serialized text, modelled by its parse: the stdlib `json` module's
contract is `loads (dumps v) = v` for every JSON value, and a `ValueError`
on malformed text. -/
inductive JSONText where
  | wellFormed (v : JValue)
  | malformed (raw : String)

/-- Model of `json.dumps`: the serialized text, identified by its parse. -/
def json.dumps (v : JValue) : JSONText := .wellFormed v

/-- Model of `json.loads`: recovers the JSON value of a well-formed text
and raises `ValueError` on malformed text. -/
def json.loads : JSONText → Except PyExc JValue
  | .wellFormed v => .ok v
  | .malformed _ => .error .valueError

/-- Python 2's `datetime.datetime`: the constructor enforces
`1 ≤ year ≤ 9999`, a month in `1..12`, a day valid for the month, an hour
below 24, minute and second below 60, microsecond below 10^6. -/
structure PyDateTime where
  year : Nat
  month : Nat
  day : Nat
  hour : Nat
  minute : Nat
  second : Nat
  microsecond : Nat
deriving DecidableEq, Repr

/-- Leap years of the proleptic Gregorian calendar (`calendar.isleap`). -/
def isLeapYear (y : Nat) : Bool :=
  (y % 4 == 0 && y % 100 != 0) || y % 400 == 0

/-- Days in a month, as `datetime` validates them. -/
def daysInMonth (y m : Nat) : Nat :=
  if m == 2 then (if isLeapYear y then 29 else 28)
  else if m == 4 || m == 6 || m == 9 || m == 11 then 30
  else 31

/-- The invariant every constructed `datetime.datetime` satisfies. -/
def PyDateTime.Valid (d : PyDateTime) : Prop :=
  1 ≤ d.year ∧ d.year ≤ 9999 ∧ 1 ≤ d.month ∧ d.month ≤ 12 ∧
  1 ≤ d.day ∧ d.day ≤ daysInMonth d.year d.month ∧
  d.hour ≤ 23 ∧ d.minute ≤ 59 ∧ d.second ≤ 59 ∧ d.microsecond ≤ 999999

instance (d : PyDateTime) : Decidable d.Valid := by
  unfold PyDateTime.Valid; infer_instance

/-- In-memory Python values that can appear as a row attribute.  Opaque
objects (anything outside the JSON-native types and `datetime`) are
identified by a natural number and compared by that identity, mirroring
"compared by their own equality". -/
inductive Value where
  | null
  | bool (b : Bool)
  | int (n : Int)
  | str (s : String)
  | list (xs : List Value)
  | tuple (xs : List Value)
  | dict (kvs : List (String × Value))
  | datetime (d : PyDateTime)
  | pickled (id : Nat)

/-- Model of `pickle.dumps`: an injective rendering of the opaque
object's identity as text. -/
def pickle.dumps (id : Nat) : String := ⟨List.replicate id 'x'⟩

/-- Model of `pickle.loads`: the inverse of `dumps`, raising an
unpickling error on anything `dumps` cannot have produced. -/
def pickle.loads (s : String) : Except PyExc Value :=
  if s.data.all (· == 'x') then .ok (.pickled s.data.length)
  else .error .unpicklingError

/-! ## The textual timestamp: `d.ctime()` and
`datetime.strptime(s, '%a %b %d %H:%M:%S %Y')` -/

/-- The decimal digit character for `n ≤ 9`. -/
def digitChar (n : Nat) : Char := Char.ofNat (48 + n)

/-- The numeric value of a decimal digit character. -/
def charDigit (c : Char) : Nat := c.toNat - 48

/-- A two-digit zero-padded field, as `ctime` prints hours, minutes and
seconds (`%02d`). -/
def render2 (n : Nat) : List Char := [digitChar (n / 10), digitChar (n % 10)]

/-- Parse a two-digit field. -/
def parse2 : List Char → Option (Nat × List Char)
  | c1 :: c2 :: rest =>
    if c1.isDigit && c2.isDigit then some (10 * charDigit c1 + charDigit c2, rest)
    else none
  | _ => none

/-- The day-of-month field as `ctime` prints it (`%2d`): space-padded for
one-digit days. -/
def renderDay (n : Nat) : List Char :=
  if n < 10 then [' ', digitChar n] else render2 n

/-- Parse the day-of-month field, accepting the space-padded form the
`%d` directive of `_strptime` accepts. -/
def parseDay : List Char → Option (Nat × List Char)
  | ' ' :: c :: rest => if c.isDigit then some (charDigit c, rest) else none
  | c1 :: c2 :: rest =>
    if c1.isDigit && c2.isDigit then some (10 * charDigit c1 + charDigit c2, rest)
    else none
  | _ => none

/-- The year as `ctime` prints it: unpadded decimal (`%d`). -/
def renderYear (n : Nat) : List Char :=
  if n < 10 then [digitChar n]
  else if n < 100 then render2 n
  else if n < 1000 then [digitChar (n / 100), digitChar (n / 10 % 10), digitChar (n % 10)]
  else [digitChar (n / 1000), digitChar (n / 100 % 10), digitChar (n / 10 % 10), digitChar (n % 10)]

/-- Parse `%Y` at end of input: Python's `_strptime` compiles `%Y` to the
regex `\d\d\d\d` — exactly four digits — and requires the match to consume
the entire string. -/
def parseYear4End : List Char → Option Nat
  | [c1, c2, c3, c4] =>
    if c1.isDigit && c2.isDigit && c3.isDigit && c4.isDigit then
      some (1000 * charDigit c1 + 100 * charDigit c2 + 10 * charDigit c3 + charDigit c4)
    else none
  | _ => none

/-- Consume one expected literal character. -/
def eatChar (t : Char) : List Char → Option (List Char)
  | c :: cs => if c = t then some cs else none
  | [] => none

/-- Consume an expected literal token. -/
def eatToken : List Char → List Char → Option (List Char)
  | [], cs => some cs
  | _ :: _, [] => none
  | t :: ts, c :: cs => if c = t then eatToken ts cs else none

/-- The abbreviated weekday names, in `asctime`'s order (`tm_wday` 0 is
Sunday); `ctime` indexes this table by the computed weekday. -/
def wdayNames : List (List Char) :=
  [['S','u','n'], ['M','o','n'], ['T','u','e'], ['W','e','d'],
   ['T','h','u'], ['F','r','i'], ['S','a','t']]

/-- The abbreviated month names, in `asctime`'s order. -/
def monNames : List (List Char) :=
  [['J','a','n'], ['F','e','b'], ['M','a','r'], ['A','p','r'],
   ['M','a','y'], ['J','u','n'], ['J','u','l'], ['A','u','g'],
   ['S','e','p'], ['O','c','t'], ['N','o','v'], ['D','e','c']]

/-- Match one of a list of names against the input, returning the index
of the first name that is a prefix and the remaining input. -/
def parseNameAux : List (List Char) → Nat → List Char → Option (Nat × List Char)
  | [], _, _ => none
  | t :: ts, i, cs =>
    match eatToken t cs with
    | some rest => some (i, rest)
    | none => parseNameAux ts (i + 1) cs

/-- Match one of a list of names against the input (`%a` / `%b`). -/
def parseName (names : List (List Char)) (cs : List Char) : Option (Nat × List Char) :=
  parseNameAux names 0 cs

/-- The weekday (0 = Sunday) that `ctime` prints, computed by Sakamoto's
congruence over the proleptic Gregorian calendar. -/
def ctimeWday (y m d : Nat) : Nat :=
  let t := [0, 3, 2, 5, 0, 3, 5, 1, 4, 6, 2, 4]
  let y2 := if m < 3 then y - 1 else y
  (y2 + y2 / 4 - y2 / 100 + y2 / 400 + t.getD (m - 1) 0 + d) % 7

/-- The characters of `d.ctime()`: `'Www Mmm DD HH:MM:SS YYYY'` with a
space-padded day and an unpadded year; microseconds never appear. -/
def ctimeChars (dt : PyDateTime) : List Char :=
  wdayNames.getD (ctimeWday dt.year dt.month dt.day) [] ++
  (' ' :: (monNames.getD (dt.month - 1) [] ++
  (' ' :: (renderDay dt.day ++
  (' ' :: (render2 dt.hour ++
  (':' :: (render2 dt.minute ++
  (':' :: (render2 dt.second ++
  (' ' :: renderYear dt.year)))))))))))

/-- Model of `datetime.ctime()`. -/
def PyDateTime.ctime (dt : PyDateTime) : String := ⟨ctimeChars dt⟩

/-- The parser `datetime.strptime(·, '%a %b %d %H:%M:%S %Y')` compiles
to: each directive's regex in sequence, the whole string consumed, then
the `datetime` constructor's own range validation.  The weekday is parsed
but ignored (the result is built from year, month and day only), and the
microsecond of the result is always `0` — the format has no microsecond
directive. -/
def strptimeCtimeChars (cs : List Char) : Option PyDateTime := do
  let (_, cs) ← parseName wdayNames cs
  let cs ← eatChar ' ' cs
  let (m0, cs) ← parseName monNames cs
  let cs ← eatChar ' ' cs
  let (day, cs) ← parseDay cs
  let cs ← eatChar ' ' cs
  let (hour, cs) ← parse2 cs
  let cs ← eatChar ':' cs
  let (minute, cs) ← parse2 cs
  let cs ← eatChar ':' cs
  let (second, cs) ← parse2 cs
  let cs ← eatChar ' ' cs
  let year ← parseYear4End cs
  let dt : PyDateTime := ⟨year, m0 + 1, day, hour, minute, second, 0⟩
  if dt.Valid then some dt else none

/-- Model of `datetime.datetime.strptime(s, '%a %b %d %H:%M:%S %Y')`:
a parse failure raises `ValueError`. -/
def strptimeCtimeFormat (s : String) : Except PyExc PyDateTime :=
  match strptimeCtimeChars s.data with
  | some dt => .ok dt
  | none => .error .valueError

/-! ## Python dictionaries as association lists -/

/-- `d[key]` lookup in a Python dict modelled as an association list
(first match; construction below keeps keys unique as real dicts do). -/
def pyLookup {α : Type} : List (String × α) → String → Option α
  | [], _ => none
  | (k, v) :: rest, key => if k = key then some v else pyLookup rest key

/-- `d[key] = v`: overwrite in place if present, append if new. -/
def dictSet {α : Type} : List (String × α) → String → α → List (String × α)
  | [], key, v => [(key, v)]
  | (k, w) :: rest, key, v =>
    if k = key then (k, v) :: rest else (k, w) :: dictSet rest key v

/-- `d.update(u)`: `dictSet` every entry of `u` into `d` in order. -/
def dictUpdate {α : Type} : List (String × α) → List (String × α) → List (String × α)
  | d, [] => d
  | d, (k, v) :: rest => dictUpdate (dictSet d k v) rest

/-! ## The serialization codec (`WritableRowBase._serializeHelper`,
`RowBase._desearializeHelper`, `_serialize`, `_desearialize`) -/

mutual

/-- `WritableRowBase._serializeHelper` (helper_classes.py:253-269): lists
and tuples go through `map` (which in Python 2 builds a list), dicts are
rewritten value-wise, a `datetime` becomes the envelope
`{'_NoDBSpecialType': 'datetime', 'value': d.ctime()}`, the JSON-native
types pass through, and anything else becomes the envelope
`{'_NoDBSpecialType': 'pickled_object', 'value': pickle.dumps(d)}`. -/
def WritableRowBase._serializeHelper : Value → JValue
  | .null => .null
  | .bool b => .bool b
  | .int n => .num n
  | .str s => .str s
  | .list xs => .arr (WritableRowBase.serializeListHelper xs)
  | .tuple xs => .arr (WritableRowBase.serializeListHelper xs)
  | .dict kvs => .obj (WritableRowBase.serializeObjHelper kvs)
  | .datetime d =>
    .obj [("_NoDBSpecialType", .str "datetime"), ("value", .str d.ctime)]
  | .pickled id =>
    .obj [("_NoDBSpecialType", .str "pickled_object"), ("value", .str (pickle.dumps id))]

/-- `map(self._serializeHelper, d)` over a list or tuple. -/
def WritableRowBase.serializeListHelper : List Value → List JValue
  | [] => []
  | x :: xs => WritableRowBase._serializeHelper x :: WritableRowBase.serializeListHelper xs

/-- `for key in d: d[key] = self._serializeHelper(d[key])` over a dict. -/
def WritableRowBase.serializeObjHelper : List (String × Value) → List (String × JValue)
  | [] => []
  | (k, v) :: rest => (k, WritableRowBase._serializeHelper v) :: WritableRowBase.serializeObjHelper rest

end

mutual

/-- `RowBase._desearializeHelper` (helper_classes.py:215-229): lists map
element-wise; a dict with the `'_NoDBSpecialType'` key short-circuits —
`'datetime'` re-parses the fixed-format text, `'pickled_object'` unpickles,
and any *other* marker value falls off the `if/elif` with no `else`, so the
Python function returns `None`; a dict without the marker key recurses into
its values; everything else passes through. -/
def RowBase._desearializeHelper : JValue → Except PyExc Value
  | .null => .ok .null
  | .bool b => .ok (.bool b)
  | .num n => .ok (.int n)
  | .str s => .ok (.str s)
  | .arr xs => do pure (Value.list (← RowBase.desearListHelper xs))
  | .obj kvs =>
    match pyLookup kvs "_NoDBSpecialType" with
    | some (JValue.str tag) =>
      if tag = "datetime" then
        match pyLookup kvs "value" with
        | some (JValue.str s) => do pure (Value.datetime (← strptimeCtimeFormat s))
        | some _ => .error .typeError
        | none => .error .keyError
      else if tag = "pickled_object" then
        match pyLookup kvs "value" with
        | some (JValue.str s) => pickle.loads s
        | some _ => .error .unpicklingError
        | none => .error .keyError
      else .ok .null
    | some _ => .ok .null
    | none => do pure (Value.dict (← RowBase.desearObjHelper kvs))

/-- `map(self._desearializeHelper, d)` over a JSON array. -/
def RowBase.desearListHelper : List JValue → Except PyExc (List Value)
  | [] => .ok []
  | x :: xs => do
    pure ((← RowBase._desearializeHelper x) :: (← RowBase.desearListHelper xs))

/-- `for key in d: d[key] = self._desearializeHelper(d[key])` over a
marker-free JSON object. -/
def RowBase.desearObjHelper : List (String × JValue) → Except PyExc (List (String × Value))
  | [] => .ok []
  | (k, v) :: rest => do
    pure ((k, ← RowBase._desearializeHelper v) :: (← RowBase.desearObjHelper rest))

end

/-- `RowBase._desearialize` (helper_classes.py:231-234): `json.loads`
then the recursive helper. -/
def RowBase._desearialize (contents : JSONText) : Except PyExc Value := do
  RowBase._desearializeHelper (← json.loads contents)

/-- The value-level encoder of the codec contract: `json.dumps` of
`_serializeHelper`, exactly what `_serialize` applies to the attribute
dict. -/
def Codec.encode (v : Value) : JSONText :=
  json.dumps (WritableRowBase._serializeHelper v)

/-- The value-level decoder of the codec contract: `_desearialize`. -/
def Codec.decode (t : JSONText) : Except PyExc Value :=
  RowBase._desearialize t

/-! ## Round-trip of the codec -/

/-- The domain on which the codec is an exact round trip, read off the
source: every kind the spec lists, except that tuples are excluded (the
decoder's `map` rebuilds a Python `list`), dicts must not use the
reserved marker key, and a timestamp must have zero microseconds (the
`ctime` text has none) and a four-digit year (`%Y` parses exactly four
digits). -/
inductive Roundtrippable : Value → Prop where
  | null : Roundtrippable .null
  | bool (b : Bool) : Roundtrippable (.bool b)
  | int (n : Int) : Roundtrippable (.int n)
  | str (s : String) : Roundtrippable (.str s)
  | pickled (id : Nat) : Roundtrippable (.pickled id)
  | list {xs : List Value} : (∀ x ∈ xs, Roundtrippable x) → Roundtrippable (.list xs)
  | dict {kvs : List (String × Value)} :
      (∀ kv ∈ kvs, Roundtrippable kv.2) →
      (∀ kv ∈ kvs, kv.1 ≠ "_NoDBSpecialType") →
      Roundtrippable (.dict kvs)
  | datetime {d : PyDateTime} : d.Valid → 1000 ≤ d.year → d.microsecond = 0 →
      Roundtrippable (.datetime d)

/-! ## Row attribute dictionary: public attributes, `_serialize`,
`_loadContents` -/

/-- Python's `key[0] == '_'` test on a nonempty string: whether the
first character is an underscore. -/
def strHeadUnderscore (s : String) : Bool :=
  match s.data with
  | [] => false
  | c :: _ => c == '_'

/-- `RowBase._getPublicAttribs` (helper_classes.py:212-213): keep the
entries whose key's first character is not an underscore
(`key[0] != '_'`); on an empty key, Python's `key[0]` raises
`IndexError`. -/
def RowBase._getPublicAttribs (d : List (String × Value)) :
    Except PyExc (List (String × Value)) :=
  if d.all fun kv => !(kv.1 == "") then
    .ok (d.filter fun kv => !strHeadUnderscore kv.1)
  else .error .indexError

/-- `WritableRowBase._serialize` (helper_classes.py:271-275): filter to
the public attributes, run the recursive helper on that dict, and
`json.dumps` the result. -/
def WritableRowBase._serialize (d : List (String × Value)) : Except PyExc JSONText := do
  let attribs ← RowBase._getPublicAttribs d
  pure (json.dumps (WritableRowBase._serializeHelper (.dict attribs)))

/-- `RowBase._loadContents` (helper_classes.py:198-206), restricted to
its data flow: read the file, `_desearialize`, then
`self.__dict__.update(contents)` — an unfiltered merge into the instance
dictionary.  (A decoded non-mapping is modelled as a `TypeError`; the
code only ever writes mapping-shaped files.)  The transient shared lock
taken for the read leaves the dictionary untouched and is modelled in
the lock state machine below. -/
def RowBase._loadContents (rowDict : List (String × Value)) (contents : JSONText) :
    Except PyExc (List (String × Value)) := do
  match (← RowBase._desearialize contents) with
  | .dict kvs => pure (dictUpdate rowDict kvs)
  | _ => .error .typeError

/-! ## The advisory-lock state machine and `save` -/

/-- The lock state of one open file handle, as `flock` tracks it: a
handle holds nothing, a shared lock, or an exclusive lock. -/
inductive LockState where
  | unlocked
  | shared
  | exclusive
deriving DecidableEq, Repr

/-- `LockBase.releaseLock` (helper_classes.py:42-43):
`fcntl.flock(fd, LOCK_UN)` drops whatever lock the handle holds —
`flock` locks do not nest, so this unlocks even a handle that acquired
the exclusive lock twice. -/
def LockBase.releaseLock (_ : LockState) : LockState := .unlocked

/-- `SharedLock.acquireLock` (helper_classes.py:52-54):
`fcntl.flock(fd, LOCK_SH)`. -/
def SharedLock.acquireLock (_ : LockState) : LockState := .shared

/-- `ExclusiveLock.acquireLock` (helper_classes.py:57-59):
`fcntl.flock(fd, LOCK_EX)`; on a handle that already holds the lock
this re-grants (converts to) the exclusive lock. -/
def ExclusiveLock.acquireLock (_ : LockState) : LockState := .exclusive

/-- One open Row: its instance dictionary (public attributes), the lock
state of its file handle, and its file's content. -/
structure RowState where
  rowDict : List (String × Value)
  lock : LockState
  file : JSONText

/-- `WritableRowBase.save` (helper_classes.py:247-251): serialize first;
then `with self.getExclusiveLock():` — the context manager's entry runs
`flock(LOCK_EX)`, the body overwrites the file, and the exit runs
`flock(LOCK_UN)` unconditionally. -/
def WritableRowBase.save (r : RowState) : Except PyExc RowState :=
  match WritableRowBase._serialize r.rowDict with
  | .error e => .error e
  | .ok text =>
    let entered := ExclusiveLock.acquireLock r.lock
    let exited := LockBase.releaseLock entered
    .ok { r with lock := exited, file := text }

/-! ## The table directory and the row lifecycle -/

/-- One table's directory: row key to row-file content. -/
abbrev FS := List (String × JSONText)

/-- `os.path.exists` on a row file. -/
def FS.exists (fs : FS) (key : String) : Bool := (pyLookup fs key).isSome

/-- `os.remove`: in Python 2 a missing file makes it raise
`OSError` with `errno == ENOENT` (2) — `OSError`, not `IOError`. -/
def os.remove (fs : FS) (key : String) : Except PyExc FS :=
  if FS.exists fs key then .ok (fs.filter fun kv => !(kv.1 == key))
  else .error (.osError 2)

/-- `Table.remove` (helper_classes.py:158-165): `os.remove` wrapped in
`try/except IOError` — the clause matches only `IOError`, and in
Python 2 the `OSError` that `os.remove` raises is not an `IOError`, so
it propagates past the clause unmapped. -/
def Table.remove (fs : FS) (key : String) : Except PyExc FS :=
  match os.remove fs key with
  | .ok fs2 => .ok fs2
  | .error e =>
    match e with
    | .ioError errno =>
      if errno == 2 then .error (.rowDoesNotExist key) else .error (.ioError errno)
    | other => .error other

/-- The initial content `RowBase.__init__` writes for a new row
(helper_classes.py:181-182): the text `'{}'`, i.e. the serialized empty
mapping. -/
def initialRowText : JSONText := json.dumps (.obj [])

/-- `RowBase.__init__` with `is_new=True` (helper_classes.py:178-182):
check existence, raise `RowAlreadyExists` if the file is there,
otherwise write `'{}'`.  The caller must hold the table lock. -/
def Row.initNew (fs : FS) (key : String) : Except PyExc FS :=
  if FS.exists fs key then .error (.rowAlreadyExists key)
  else .ok (dictSet fs key initialRowText)

/-- `Table.create` (helper_classes.py:126-129): the existence check and
the initial write of `Row.initNew` run under
`with self.getExclusiveLock():` on the table's `.lock` handle, so the
whole step is atomic with respect to every other creator that honours
the same lock; concurrency below is therefore modelled by running the
creations in some serial order. -/
def Table.create (fs : FS) (key : String) : Except PyExc FS :=
  Row.initNew fs key

/-- `K` concurrent `Table.create` calls for the same key: thanks to the
table's exclusive lock they serialize; this runs them in order,
threading the filesystem only through the successful ones. -/
def Table.runConcurrentCreates (fs : FS) (key : String) : Nat → List (Except PyExc Unit)
  | 0 => []
  | Nat.succ k =>
    match Table.create fs key with
    | .ok fs2 => .ok () :: Table.runConcurrentCreates fs2 key k
    | .error e => .error e :: Table.runConcurrentCreates fs key k

/-- Is this result a success? -/
def isOkResult (r : Except PyExc Unit) : Bool :=
  match r with
  | .ok _ => true
  | .error _ => false

/-- Is this result a `RowAlreadyExists(key)` failure? -/
def isRAEResult (key : String) (r : Except PyExc Unit) : Bool :=
  match r with
  | .error (.rowAlreadyExists k) => k == key
  | _ => false

/-- The names bound at module level in `helper_classes.py`: its imports
(`import errors`, not `from errors import *`), the `json` binding, and
the classes the file defines.  `RowAlreadyExists` is not among them. -/
def helperClassesModuleNames : List String :=
  ["datetime", "pickle", "fcntl", "os", "errno", "shutil", "types", "pprint",
   "errors", "random", "string", "getFastestJSONModule", "json",
   "LockBase", "SharedLock", "ExclusiveLock", "NoDBBase", "Database", "Table",
   "RowBase", "WritableRowBase", "Row", "ReadOnlyRow", "LockedRow"]

/-- Python name resolution in that module's global scope. -/
def nameIsBound (n : String) : Bool := helperClassesModuleNames.contains n

/-- `Table.createWithUniqueKey` (helper_classes.py:131-140): loop —
generate a key, `self.create(key)`, break on success; the handler line
reads `except RowAlreadyExists:`, a *bare* name, which Python resolves
only when an exception reaches the clause; an unbound name there raises
`NameError`, replacing the in-flight exception.  `gen i` is the key the
`i`-th iteration's `_generateRandomString` call produces; `fuel` bounds
the unbounded `while True` for totality only. -/
def Table.createWithUniqueKey (fuel : Nat) (fs : FS) (gen : Nat → String) :
    Except PyExc (FS × String) :=
  match fuel with
  | 0 => .error .loopFuelExhausted
  | Nat.succ f =>
    match Table.create fs (gen 0) with
    | .ok fs2 => .ok (fs2, gen 0)
    | .error e =>
      if nameIsBound "RowAlreadyExists" then
        match e with
        | .rowAlreadyExists _ => Table.createWithUniqueKey f fs fun i => gen (i + 1)
        | _ => .error e
      else .error (.nameError "RowAlreadyExists")

/-- `Table.createLockedWithUniqueKey` (helper_classes.py:147-156): the
same loop, but its handler reads `except errors.RowAlreadyExists:` — an
attribute of the imported `errors` module, which resolves — so a
collision really retries. -/
def Table.createLockedWithUniqueKey (fuel : Nat) (fs : FS) (gen : Nat → String) :
    Except PyExc (FS × String) :=
  match fuel with
  | 0 => .error .loopFuelExhausted
  | Nat.succ f =>
    match Table.create fs (gen 0) with
    | .ok fs2 => .ok (fs2, gen 0)
    | .error e =>
      match e with
      | .rowAlreadyExists _ => Table.createLockedWithUniqueKey f fs fun i => gen (i + 1)
      | _ => .error e

/-! ## `Table._generateRandomString` -/

/-- `string.ascii_letters + string.digits`: the alphabet
`random.choice` draws from. -/
def asciiLettersDigits : List Char :=
  ['a','b','c','d','e','f','g','h','i','j','k','l','m',
   'n','o','p','q','r','s','t','u','v','w','x','y','z',
   'A','B','C','D','E','F','G','H','I','J','K','L','M',
   'N','O','P','Q','R','S','T','U','V','W','X','Y','Z',
   '0','1','2','3','4','5','6','7','8','9']

/-- `Table._generateRandomString` (helper_classes.py:167-168):
`''.join([random.choice(alphabet) for i in range(length)])`, with the
random draws modelled as an arbitrary function `pick` from the draw
index into the 62-character alphabet. -/
def Table._generateRandomString (length : Nat) (pick : Nat → Fin 62) : String :=
  ⟨(List.range length).map fun i => asciiLettersDigits.get ⟨(pick i).val, (pick i).isLt⟩⟩

/-- The Row's private instance fields, all underscore-prefixed
(helper_classes.py:171-176, 185, 192/280). -/
def internalFieldNames : List String :=
  ["_data_dir", "_db", "_table", "_key", "_filename",
   "_fd_readonly", "_fd_lock", "_is_locked"]

/-! ## Theorems -/

theorem json_loads_after_dumps (v : JValue) : json.loads (json.dumps v) = .ok v := rfl

theorem pickle_loads_after_dumps (id : Nat) :
    pickle.loads (pickle.dumps id) = .ok (.pickled id) := by
  simp [pickle.loads, pickle.dumps]

theorem digitChar_isDigit {n : Nat} (h : n ≤ 9) : (digitChar n).isDigit = true := by
  interval_cases n <;> decide

theorem charDigit_digitChar {n : Nat} (h : n ≤ 9) : charDigit (digitChar n) = n := by
  interval_cases n <;> decide

theorem parse2_render2 (n : Nat) (h : n ≤ 99) (r : List Char) :
    parse2 (render2 n ++ r) = some (n, r) := by
  have h1 : n / 10 ≤ 9 := by omega
  have h2 : n % 10 ≤ 9 := by omega
  simp [render2, parse2, digitChar_isDigit h1, digitChar_isDigit h2,
    charDigit_digitChar h1, charDigit_digitChar h2]
  omega

theorem parseDay_renderDay (n : Nat) (h1 : 1 ≤ n) (h2 : n ≤ 31) (r : List Char) :
    parseDay (renderDay n ++ r) = some (n, r) := by
  interval_cases n <;> rfl

theorem parseYear4End_renderYear (n : Nat) (h1 : 1000 ≤ n) (h2 : n ≤ 9999) :
    parseYear4End (renderYear n) = some n := by
  have e1 : ¬ n < 10 := by omega
  have e2 : ¬ n < 100 := by omega
  have e3 : ¬ n < 1000 := by omega
  have d1 : n / 1000 ≤ 9 := by omega
  have d2 : n / 100 % 10 ≤ 9 := by omega
  have d3 : n / 10 % 10 ≤ 9 := by omega
  have d4 : n % 10 ≤ 9 := by omega
  simp [renderYear, e1, e2, e3, parseYear4End,
    digitChar_isDigit d1, digitChar_isDigit d2, digitChar_isDigit d3, digitChar_isDigit d4,
    charDigit_digitChar d1, charDigit_digitChar d2, charDigit_digitChar d3, charDigit_digitChar d4]
  omega

theorem eatChar_cons (t : Char) (cs : List Char) : eatChar t (t :: cs) = some cs := by
  simp [eatChar]

theorem eatToken_append (ts r : List Char) : eatToken ts (ts ++ r) = some r := by
  induction ts with
  | nil => rfl
  | cons t ts ih => simp [eatToken, ih]

theorem parseName_wdayNames (i : Nat) (h : i < 7) (r : List Char) :
    parseName wdayNames (wdayNames.getD i [] ++ r) = some (i, r) := by
  interval_cases i <;> rfl

theorem parseName_monNames (m : Nat) (h1 : 1 ≤ m) (h2 : m ≤ 12) (r : List Char) :
    parseName monNames (monNames.getD (m - 1) [] ++ r) = some (m - 1, r) := by
  interval_cases m <;> rfl

theorem ctimeWday_lt (y m d : Nat) : ctimeWday y m d < 7 :=
  Nat.mod_lt _ (by norm_num)

theorem daysInMonth_le_31 (y m : Nat) : daysInMonth y m ≤ 31 := by
  unfold daysInMonth
  split
  · split <;> omega
  · split <;> omega

/-- Parsing the `ctime` rendering of a valid four-digit-year datetime
recovers every field except the microseconds, which come back as `0`. -/
theorem strptimeCtimeChars_ctimeChars (dt : PyDateTime) (hv : dt.Valid)
    (hy : 1000 ≤ dt.year) :
    strptimeCtimeChars (ctimeChars dt) = some { dt with microsecond := 0 } := by
  obtain ⟨h1, h2, h3, h4, h5, h6, h7, h8, h9, _⟩ := hv
  have hd31 : dt.day ≤ 31 := le_trans h6 (daysInMonth_le_31 _ _)
  have hm : dt.month - 1 + 1 = dt.month := by omega
  have hvalid : PyDateTime.Valid ⟨dt.year, dt.month, dt.day, dt.hour,
      dt.minute, dt.second, 0⟩ := by
    unfold PyDateTime.Valid
    dsimp only
    exact ⟨h1, h2, h3, h4, h5, h6, h7, h8, h9, by omega⟩
  rw [ctimeChars, strptimeCtimeChars]
  rw [parseName_wdayNames _ (ctimeWday_lt dt.year dt.month dt.day)]
  simp only [Option.bind_eq_bind, Option.some_bind]
  rw [eatChar_cons, Option.some_bind,
    parseName_monNames dt.month h3 h4, Option.some_bind,
    eatChar_cons, Option.some_bind,
    parseDay_renderDay dt.day h5 hd31, Option.some_bind,
    eatChar_cons, Option.some_bind,
    parse2_render2 dt.hour (by omega), Option.some_bind,
    eatChar_cons, Option.some_bind,
    parse2_render2 dt.minute (by omega), Option.some_bind,
    eatChar_cons, Option.some_bind,
    parse2_render2 dt.second (by omega), Option.some_bind,
    eatChar_cons, Option.some_bind,
    parseYear4End_renderYear dt.year hy h2, Option.some_bind]
  rw [hm, if_pos hvalid]

/-- `strptime` after `ctime`, at `String` level. -/
theorem strptimeCtimeFormat_ctime (dt : PyDateTime) (hv : dt.Valid)
    (hy : 1000 ≤ dt.year) :
    strptimeCtimeFormat dt.ctime = .ok { dt with microsecond := 0 } := by
  rw [strptimeCtimeFormat, PyDateTime.ctime]
  rw [show (String.mk (ctimeChars dt)).data = ctimeChars dt from rfl]
  rw [strptimeCtimeChars_ctimeChars dt hv hy]

theorem pyLookup_eq_none {α : Type} {l : List (String × α)} {key : String}
    (h : ∀ kv ∈ l, kv.1 ≠ key) : pyLookup l key = none := by
  induction l with
  | nil => rfl
  | cons kv rest ih =>
    simp only [pyLookup]
    rw [if_neg (h kv (List.mem_cons_self kv rest))]
    exact ih fun x hx => h x (List.mem_cons_of_mem kv hx)

theorem desearList_serializeList {xs : List Value}
    (ih : ∀ x ∈ xs, RowBase._desearializeHelper (WritableRowBase._serializeHelper x) = .ok x) :
    RowBase.desearListHelper (WritableRowBase.serializeListHelper xs) = .ok xs := by
  induction xs with
  | nil => rfl
  | cons x xs ihl =>
    have hx : RowBase._desearializeHelper (WritableRowBase._serializeHelper x) = .ok x :=
      ih x (List.mem_cons_self x xs)
    have hrest := ihl fun y hy => ih y (List.mem_cons_of_mem x hy)
    simp only [WritableRowBase.serializeListHelper, RowBase.desearListHelper]
    rw [hx, hrest]
    rfl

theorem desearObj_serializeObj {kvs : List (String × Value)}
    (ih : ∀ kv ∈ kvs, RowBase._desearializeHelper (WritableRowBase._serializeHelper kv.2) = .ok kv.2) :
    RowBase.desearObjHelper (WritableRowBase.serializeObjHelper kvs) = .ok kvs := by
  induction kvs with
  | nil => rfl
  | cons kv kvs ihl =>
    obtain ⟨k, v⟩ := kv
    have hv : RowBase._desearializeHelper (WritableRowBase._serializeHelper v) = .ok v :=
      ih (k, v) (List.mem_cons_self (k, v) kvs)
    have hrest := ihl fun y hy => ih y (List.mem_cons_of_mem (k, v) hy)
    simp only [WritableRowBase.serializeObjHelper, RowBase.desearObjHelper]
    rw [hv, hrest]
    rfl

theorem serializeObjHelper_keys {kvs : List (String × Value)} {key : String}
    (h : ∀ kv ∈ kvs, kv.1 ≠ key) :
    ∀ kv2 ∈ WritableRowBase.serializeObjHelper kvs, kv2.1 ≠ key := by
  induction kvs with
  | nil => intro kv2 h2; simp [WritableRowBase.serializeObjHelper] at h2
  | cons kv kvs ihl =>
    obtain ⟨k, v⟩ := kv
    intro kv2 h2
    simp only [WritableRowBase.serializeObjHelper, List.mem_cons] at h2
    rcases h2 with h2 | h2
    · subst h2; exact h (k, v) (List.mem_cons_self (k, v) kvs)
    · exact ihl (fun y hy => h y (List.mem_cons_of_mem (k, v) hy)) kv2 h2

theorem desearHelper_obj_no_marker {kvs : List (String × JValue)}
    (h : pyLookup kvs "_NoDBSpecialType" = none) :
    RowBase._desearializeHelper (.obj kvs) =
      (RowBase.desearObjHelper kvs).bind fun l => .ok (.dict l) := by
  simp only [RowBase._desearializeHelper]
  rw [h]
  rfl

/-- Decoding the encoding is the identity on the round-trippable domain
(helper level). -/
theorem desearHelper_serializeHelper (v : Value) (h : Roundtrippable v) :
    RowBase._desearializeHelper (WritableRowBase._serializeHelper v) = .ok v := by
  induction h with
  | null => rfl
  | bool b => rfl
  | int n => rfl
  | str s => rfl
  | pickled id => exact pickle_loads_after_dumps id
  | list h ih =>
    rename_i xs
    have heq : RowBase._desearializeHelper (WritableRowBase._serializeHelper (.list xs)) =
        (RowBase.desearListHelper (WritableRowBase.serializeListHelper xs)).bind
          fun l => .ok (.list l) := rfl
    rw [heq, desearList_serializeList ih]
    rfl
  | dict hvals hkeys ih =>
    rename_i kvs
    have hmark : pyLookup (WritableRowBase.serializeObjHelper kvs) "_NoDBSpecialType" = none :=
      pyLookup_eq_none (serializeObjHelper_keys hkeys)
    have heq : WritableRowBase._serializeHelper (.dict kvs) =
        .obj (WritableRowBase.serializeObjHelper kvs) := rfl
    rw [heq, desearHelper_obj_no_marker hmark, desearObj_serializeObj ih]
    rfl
  | datetime hv hy hmu =>
    rename_i d
    have hd : ({ d with microsecond := 0 } : PyDateTime) = d := by
      cases d
      dsimp only at hmu
      rw [hmu]
    have heq : RowBase._desearializeHelper (WritableRowBase._serializeHelper (.datetime d)) =
        (strptimeCtimeFormat d.ctime).bind fun dt => .ok (.datetime dt) := rfl
    rw [heq, strptimeCtimeFormat_ctime d hv hy]
    show Except.ok (Value.datetime { d with microsecond := 0 }) = _
    rw [hd]

/-! ## Supporting lemmas -/

theorem pyLookup_dictSet_self {α : Type} (l : List (String × α)) (k : String) (v : α) :
    pyLookup (dictSet l k v) k = some v := by
  induction l with
  | nil => simp [dictSet, pyLookup]
  | cons kv rest ih =>
    obtain ⟨k0, v0⟩ := kv
    by_cases h : k0 = k
    · subst h; simp [dictSet, pyLookup]
    · simp only [dictSet, pyLookup, if_neg h]
      exact ih

theorem pyLookup_dictSet_ne {α : Type} (l : List (String × α)) {k0 k : String} (v : α)
    (h : k0 ≠ k) : pyLookup (dictSet l k0 v) k = pyLookup l k := by
  induction l with
  | nil => simp [dictSet, pyLookup, h]
  | cons kv rest ih =>
    obtain ⟨k1, v1⟩ := kv
    by_cases h1 : k1 = k0
    · subst h1; simp [dictSet, pyLookup, h]
    · simp only [dictSet, pyLookup, if_neg h1]
      by_cases h2 : k1 = k
      · simp [if_pos h2]
      · simp only [if_neg h2]
        exact ih

theorem pyLookup_dictUpdate_not_mem {α : Type} {u : List (String × α)} {k : String}
    (h : ∀ kv ∈ u, kv.1 ≠ k) (d : List (String × α)) :
    pyLookup (dictUpdate d u) k = pyLookup d k := by
  induction u generalizing d with
  | nil => rfl
  | cons kv rest ih =>
    obtain ⟨k0, v0⟩ := kv
    simp only [dictUpdate]
    rw [ih fun y hy => h y (List.mem_cons_of_mem (k0, v0) hy)]
    exact pyLookup_dictSet_ne d v0 (h (k0, v0) (List.mem_cons_self (k0, v0) rest))

theorem serializeObjHelper_keyPred {kvs : List (String × Value)} {p : String → Prop}
    (h : ∀ kv ∈ kvs, p kv.1) :
    ∀ kv2 ∈ WritableRowBase.serializeObjHelper kvs, p kv2.1 := by
  induction kvs with
  | nil => intro kv2 h2; simp [WritableRowBase.serializeObjHelper] at h2
  | cons kv kvs ihl =>
    obtain ⟨k, v⟩ := kv
    intro kv2 h2
    simp only [WritableRowBase.serializeObjHelper, List.mem_cons] at h2
    rcases h2 with h2 | h2
    · subst h2; exact h (k, v) (List.mem_cons_self (k, v) kvs)
    · exact ihl (fun y hy => h y (List.mem_cons_of_mem (k, v) hy)) kv2 h2

theorem FS.exists_dictSet_self (fs : FS) (k : String) (t : JSONText) :
    FS.exists (dictSet fs k t) k = true := by
  simp [FS.exists, pyLookup_dictSet_self]

theorem filter_replicate_false {α : Type} {p : α → Bool} {a : α} (h : p a = false) (n : Nat) :
    (List.replicate n a).filter p = [] := by
  induction n with
  | zero => rfl
  | succ n ih => simp [List.replicate_succ, List.filter_cons, h, ih]

theorem filter_replicate_true {α : Type} {p : α → Bool} {a : α} (h : p a = true) (n : Nat) :
    (List.replicate n a).filter p = List.replicate n a := by
  induction n with
  | zero => rfl
  | succ n ih => simp [List.replicate_succ, List.filter_cons, h, ih]

theorem runConcurrentCreates_of_exists (fs : FS) (key : String)
    (h : FS.exists fs key = true) (n : Nat) :
    Table.runConcurrentCreates fs key n =
      List.replicate n (.error (.rowAlreadyExists key)) := by
  induction n with
  | zero => rfl
  | succ n ih =>
    have hc : Table.create fs key = .error (.rowAlreadyExists key) := by
      simp [Table.create, Row.initNew, h]
    simp [Table.runConcurrentCreates, hc, ih, List.replicate_succ]

/-! ## The claims -/

/-- C1 (counterexample): the codec round trip fails as universally
stated.  A tuple comes back as a list — the decoder's `map` builds a
Python list — which Python's `==` distinguishes from the tuple; and a
timestamp with nonzero microseconds comes back truncated to whole
seconds, because `ctime`'s format carries no microsecond field. -/
theorem serialization_roundtrip_fails_on_tuple_and_microseconds :
    Codec.decode (Codec.encode (.tuple [.int 1])) = .ok (.list [.int 1]) ∧
    Value.list [.int 1] ≠ Value.tuple [.int 1] ∧
    Codec.decode (Codec.encode (.datetime ⟨2020, 1, 2, 3, 4, 5, 6⟩)) =
      .ok (.datetime ⟨2020, 1, 2, 3, 4, 5, 0⟩) ∧
    (⟨2020, 1, 2, 3, 4, 5, 0⟩ : PyDateTime) ≠ ⟨2020, 1, 2, 3, 4, 5, 6⟩ := by
  refine ⟨rfl, ?_, rfl, by decide⟩
  intro h
  exact Value.noConfusion h

/-- C1 (amended): `decode (encode v) = v` for every supported value on
the domain the code actually round-trips: null, booleans, numbers,
strings, lists of such values, mappings of such values that do not use
the reserved `'_NoDBSpecialType'` key, timestamps at whole-second
precision with four-digit years, and opaque (pickled) objects.  Tuples
are not in the domain: they decode to lists with equal elements. -/
theorem serialization_roundtrip_on_supported_domain (v : Value)
    (h : Roundtrippable v) : Codec.decode (Codec.encode v) = .ok v :=
  desearHelper_serializeHelper v h

/-- C1 witness: a saved timestamp attribute re-loads exactly equal. -/
theorem serialization_roundtrip_on_supported_domain_witness :
    Roundtrippable (.datetime ⟨1993, 6, 20, 23, 21, 5, 0⟩) ∧
    Codec.decode (Codec.encode (.datetime ⟨1993, 6, 20, 23, 21, 5, 0⟩)) =
      .ok (.datetime ⟨1993, 6, 20, 23, 21, 5, 0⟩) :=
  have h : Roundtrippable (.datetime ⟨1993, 6, 20, 23, 21, 5, 0⟩) :=
    Roundtrippable.datetime (by decide) (by decide) rfl
  ⟨h, serialization_roundtrip_on_supported_domain _ h⟩

/-- C2: `save()` on a Row holding the exclusive lock (a `LockedRow`)
does not preserve the lock.  The `with self.getExclusiveLock():` block
re-acquires `LOCK_EX` and on exit runs `flock(LOCK_UN)`, which releases
the handle's lock outright — `flock` does not nest — leaving the row
Unlocked, not Exclusive, contradicting `getLocked`'s docstring that the
lock lives until the object is released.  (Only the no-lock case of the
claim holds: Unlocked stays Unlocked.) -/
theorem save_releases_exclusive_lock :
    WritableRowBase.save ⟨[], .exclusive, initialRowText⟩ =
      .ok ⟨[], .unlocked, json.dumps (.obj [])⟩ ∧
    LockState.unlocked ≠ LockState.exclusive ∧
    WritableRowBase.save ⟨[], .unlocked, initialRowText⟩ =
      .ok ⟨[], .unlocked, json.dumps (.obj [])⟩ := by
  exact ⟨rfl, by decide, rfl⟩

/-- C3 (counterexample): an envelope whose marker is not `'datetime'` or
`'pickled_object'` does not fail — it falls off the `if/elif` with no
`else` and decodes silently to `None`.  (No `UnsupportedTypeError` even
exists in `errors.py`.) -/
theorem unknown_marker_decodes_to_none :
    Codec.decode (.wellFormed (.obj [("_NoDBSpecialType", .str "bogus"), ("value", .str "x")]))
      = .ok .null := rfl

/-- C3 (amended): an envelope with an unrecognized marker decodes
silently to the null value (Python `None`) — it is transformed, not
rejected; malformed input text fails with the JSON module's parse
error (`ValueError`; the code defines no dedicated `ParseError`). -/
theorem unknown_marker_silent_and_malformed_fails :
    (∀ (kvs : List (String × JValue)) (tag : String),
      pyLookup kvs "_NoDBSpecialType" = some (JValue.str tag) →
      tag ≠ "datetime" → tag ≠ "pickled_object" →
      RowBase._desearializeHelper (.obj kvs) = .ok .null) ∧
    (∀ raw : String, Codec.decode (.malformed raw) = .error .valueError) := by
  constructor
  · intro kvs tag h h1 h2
    simp only [RowBase._desearializeHelper, h]
    rw [if_neg h1, if_neg h2]
  · intro raw
    rfl

/-- C3 witness. -/
theorem unknown_marker_silent_and_malformed_fails_witness :
    RowBase._desearializeHelper (.obj [("_NoDBSpecialType", .str "v2")]) = .ok .null ∧
    Codec.decode (.malformed "not json") = .error .valueError :=
  ⟨unknown_marker_silent_and_malformed_fails.1 [("_NoDBSpecialType", .str "v2")] "v2"
      rfl (by decide) (by decide),
    unknown_marker_silent_and_malformed_fails.2 "not json"⟩

/-- C4: creating a row whose file is absent writes the serialized empty
mapping (`'{}'`), a text valid under the codec's grammar that decodes to
the empty mapping. -/
theorem createRow_writes_serialized_empty_mapping (fs : FS) (key : String)
    (h : FS.exists fs key = false) :
    Table.create fs key = .ok (dictSet fs key initialRowText) ∧
    pyLookup (dictSet fs key initialRowText) key = some initialRowText ∧
    initialRowText = Codec.encode (.dict []) ∧
    Codec.decode initialRowText = .ok (.dict []) := by
  refine ⟨?_, pyLookup_dictSet_self fs key initialRowText, rfl, rfl⟩
  simp [Table.create, Row.initNew, h]

/-- C4 witness. -/
theorem createRow_writes_serialized_empty_mapping_witness :
    Table.create [] "r1" = .ok (dictSet [] "r1" initialRowText) ∧
    pyLookup (dictSet [] "r1" initialRowText) "r1" = some initialRowText ∧
    initialRowText = Codec.encode (.dict []) ∧
    Codec.decode initialRowText = .ok (.dict []) :=
  createRow_writes_serialized_empty_mapping [] "r1" rfl

/-- C5: `Table.remove` of an absent key does *not* raise
`RowDoesNotExist`: `os.remove` raises `OSError` (errno `ENOENT`), and
the `except IOError` clause in Python 2 does not match `OSError`, so
the raw OS error propagates.  (An existing row's file is unlinked.) -/
theorem remove_missing_row_raises_raw_OSError :
    Table.remove [] "k" = .error (.osError 2) ∧
    (PyExc.osError 2 ≠ PyExc.rowDoesNotExist "k") ∧
    Table.remove [("k", initialRowText)] "k" = .ok [] := by
  exact ⟨rfl, by decide, rfl⟩

/-- C6: `_serialize` filters the instance dictionary through
`_getPublicAttribs` — exactly the keys whose first character is not an
underscore survive — so no private field name ever appears among the
serialized mapping's keys.  (The hypothesis rules out the empty-string
key, on which Python's `key[0]` would raise `IndexError` instead of
serializing anything.) -/
theorem serialize_contains_exactly_public_attribs (d : List (String × Value))
    (h : ∀ kv ∈ d, kv.1 ≠ "") :
    WritableRowBase._serialize d =
      .ok (json.dumps (.obj (WritableRowBase.serializeObjHelper
        (d.filter fun kv => !strHeadUnderscore kv.1)))) ∧
    (∀ kv ∈ WritableRowBase.serializeObjHelper (d.filter fun kv => !strHeadUnderscore kv.1),
      strHeadUnderscore kv.1 = false) ∧
    (∀ kv ∈ WritableRowBase.serializeObjHelper (d.filter fun kv => !strHeadUnderscore kv.1),
      kv.1 ∉ internalFieldNames) := by
  have hall : (d.all fun kv => !(kv.1 == "")) = true := by
    rw [List.all_eq_true]
    intro kv hkv
    simpa using h kv hkv
  have hpub : ∀ kv ∈ WritableRowBase.serializeObjHelper
      (d.filter fun kv => !strHeadUnderscore kv.1), strHeadUnderscore kv.1 = false := by
    refine @serializeObjHelper_keyPred (d.filter fun kv => !strHeadUnderscore kv.1)
      (fun k => strHeadUnderscore k = false) ?_
    intro kv hkv
    have := List.of_mem_filter hkv
    simpa using this
  refine ⟨?_, hpub, ?_⟩
  · simp [WritableRowBase._serialize, RowBase._getPublicAttribs, hall]
    rfl
  · intro kv hkv hmem
    have hstart : ∀ n ∈ internalFieldNames, strHeadUnderscore n = true := by decide
    have h1 := hpub kv hkv
    have h2 := hstart kv.1 hmem
    exact Bool.noConfusion (h1.symm.trans h2)

/-- C6 witness: a dict holding a private `_key` field and a public
`count` attribute serializes to just `{"count": 3}`. -/
theorem serialize_contains_exactly_public_attribs_witness :
    WritableRowBase._serialize [("_key", Value.str "k"), ("count", Value.int 3)] =
      .ok (json.dumps (.obj [("count", JValue.num 3)])) := by
  have H := serialize_contains_exactly_public_attribs
    [("_key", Value.str "k"), ("count", Value.int 3)]
    (by
      intro kv hkv
      simp only [List.mem_cons, List.not_mem_nil, or_false] at hkv
      rcases hkv with rfl | rfl <;> decide)
  exact H.1

/-- C7 (counterexample): `_loadContents` merges with
`self.__dict__.update(contents)` — unfiltered — so decoded content whose
key is an internal field name (here `_key`) *does* overwrite the
internal field. -/
theorem load_overwrites_underscore_key :
    RowBase._loadContents [("_key", .str "k")] (.wellFormed (.obj [("_key", .str "evil")]))
      = .ok [("_key", .str "evil")] ∧
    Value.str "evil" ≠ Value.str "k" := by
  refine ⟨rfl, ?_⟩
  intro h
  injection h with h2
  exact absurd h2 (by decide)

/-- C7 (amended): the merge leaves every internal (underscore-prefixed)
field untouched *provided* the decoded mapping contains no
underscore-prefixed key; a decoded underscore key overwrites the field
of that name. -/
theorem load_preserves_internals_without_underscore_keys
    (rowDict : List (String × Value)) (j : JValue) (kvs : List (String × Value))
    (hdec : RowBase._desearializeHelper j = .ok (.dict kvs))
    (hpub : ∀ kv ∈ kvs, strHeadUnderscore kv.1 = false) :
    RowBase._loadContents rowDict (.wellFormed j) = .ok (dictUpdate rowDict kvs) ∧
    ∀ k, strHeadUnderscore k = true →
      pyLookup (dictUpdate rowDict kvs) k = pyLookup rowDict k := by
  constructor
  · have heq : RowBase._loadContents rowDict (.wellFormed j) =
        Except.bind (RowBase._desearializeHelper j)
          (fun v => match v with
            | Value.dict kvs2 => Except.ok (dictUpdate rowDict kvs2)
            | _ => Except.error PyExc.typeError) := rfl
    rw [heq, hdec]
    rfl
  · intro k hk
    apply pyLookup_dictUpdate_not_mem
    intro kv hkv heq
    have h1 := hpub kv hkv
    rw [heq] at h1
    exact Bool.noConfusion (h1.symm.trans hk)

/-- C7 witness: loading `{"a": null}` into a row whose dict holds
`_key` leaves `_key` unchanged. -/
theorem load_preserves_internals_witness :
    RowBase._loadContents [("_key", Value.str "k")] (.wellFormed (.obj [("a", JValue.null)]))
      = .ok (dictUpdate [("_key", Value.str "k")] [("a", Value.null)]) ∧
    pyLookup (dictUpdate [("_key", Value.str "k")] [("a", Value.null)]) "_key" =
      pyLookup [("_key", Value.str "k")] "_key" := by
  have H := load_preserves_internals_without_underscore_keys
    [("_key", Value.str "k")] (.obj [("a", JValue.null)]) [("a", Value.null)]
    rfl (by
      intro kv hkv
      simp only [List.mem_cons, List.not_mem_nil, or_false] at hkv
      subst hkv
      decide)
  exact ⟨H.1, H.2 "_key" (by decide)⟩

/-- C8: a key collision inside `createWithUniqueKey` does not retry —
it raises `NameError`.  The handler line reads
`except RowAlreadyExists:`, a bare name that is unbound in
`helper_classes.py`'s module scope (the file only does
`import errors`), so when the collision exception reaches the clause,
evaluating the clause raises `NameError`.  The sibling
`createLockedWithUniqueKey`, whose handler reads
`errors.RowAlreadyExists`, retries as intended — evidence that the
bare name is a slip, not a design. -/
theorem createWithUniqueKey_collision_raises_NameError :
    Table.createWithUniqueKey 5 [("abcde", initialRowText)] (fun _ => "abcde") =
      .error (.nameError "RowAlreadyExists") ∧
    Table.createLockedWithUniqueKey 5 [("abcde", initialRowText)]
        (fun i => if i == 0 then "abcde" else "fghij") =
      .ok (dictSet [("abcde", initialRowText)] "fghij" initialRowText, "fghij") := by
  exact ⟨rfl, rfl⟩

/-- C9: `K` concurrent `createRow` calls with the same key, serialized
by the table's exclusive lock (modelled as running in some order):
exactly one succeeds and the other `K − 1` fail with
`RowAlreadyExists`. -/
theorem createRow_concurrent_exactly_one_succeeds (fs : FS) (key : String) (K : Nat)
    (hK : 1 ≤ K) (h : FS.exists fs key = false) :
    ((Table.runConcurrentCreates fs key K).filter isOkResult).length = 1 ∧
    ((Table.runConcurrentCreates fs key K).filter (isRAEResult key)).length = K - 1 ∧
    (Table.runConcurrentCreates fs key K).length = K := by
  obtain ⟨k, rfl⟩ : ∃ k, K = k + 1 := ⟨K - 1, by omega⟩
  have hc : Table.create fs key = .ok (dictSet fs key initialRowText) := by
    simp [Table.create, Row.initNew, h]
  have hrest := runConcurrentCreates_of_exists (dictSet fs key initialRowText) key
    (FS.exists_dictSet_self fs key initialRowText) k
  have hokf : isOkResult (Except.error (PyExc.rowAlreadyExists key)) = false := rfl
  have hraet : isRAEResult key (Except.error (PyExc.rowAlreadyExists key)) = true := by
    simp [isRAEResult]
  simp only [Table.runConcurrentCreates, hc, hrest]
  refine ⟨?_, ?_, ?_⟩
  · simp [List.filter_cons, isOkResult, filter_replicate_false hokf]
  · simp [List.filter_cons, isRAEResult, filter_replicate_true hraet]
  · simp

/-- C9 witness: three creations of `"r1"` on an empty table. -/
theorem createRow_concurrent_exactly_one_succeeds_witness :
    ((Table.runConcurrentCreates [] "r1" 3).filter isOkResult).length = 1 ∧
    ((Table.runConcurrentCreates [] "r1" 3).filter (isRAEResult "r1")).length = 2 ∧
    (Table.runConcurrentCreates [] "r1" 3).length = 3 :=
  createRow_concurrent_exactly_one_succeeds [] "r1" 3 (by decide) rfl

/-- C10: `_generateRandomString length` yields exactly `length`
characters, each an ASCII letter or digit, for *every* sequence of
random draws; hence (for any requested length, in particular every
length ≥ 1) the key is never the reserved lock filename `".lock"` and
never contains a path separator. -/
theorem generateRandomString_alphanumeric (length : Nat) (pick : Nat → Fin 62) :
    (Table._generateRandomString length pick).data.length = length ∧
    (∀ c ∈ (Table._generateRandomString length pick).data, c ∈ asciiLettersDigits) ∧
    Table._generateRandomString length pick ≠ ".lock" ∧
    '/' ∉ (Table._generateRandomString length pick).data ∧
    '.' ∉ (Table._generateRandomString length pick).data := by
  have hdata : (Table._generateRandomString length pick).data =
      (List.range length).map
        (fun i => asciiLettersDigits.get ⟨(pick i).val, (pick i).isLt⟩) := rfl
  have hmem : ∀ c ∈ (Table._generateRandomString length pick).data,
      c ∈ asciiLettersDigits := by
    rw [hdata]
    intro c hc
    rw [List.mem_map] at hc
    obtain ⟨i, _, rfl⟩ := hc
    exact List.get_mem _ _ _
  have hdot : '.' ∉ (Table._generateRandomString length pick).data := by
    intro hin
    have hc := hmem '.' hin
    revert hc
    decide
  refine ⟨?_, hmem, ?_, ?_, hdot⟩
  · rw [hdata]
    simp
  · intro hEq
    apply hdot
    rw [hEq]
    decide
  · intro hin
    have hc := hmem '/' hin
    revert hc
    decide
